import Mathlib

/-!
Verification of the `statement` SQLite virtual-table module
(`src/statement_vtab.c`) against its natural-language specification.

The C module exposes a parameterized read-only SQL statement as a virtual
table: result columns become output columns, bind parameters become hidden
input columns.  We embed the module's pure planning logic
(`statement_vtab_best_index`), the schema derivation
(`build_create_statement`, `statement_vtab_create`, `statement_vtab_connect`)
and the cursor protocol (`statement_vtab_open`, `statement_vtab_filter`,
`statement_vtab_next`, `statement_vtab_column`, `statement_vtab_eof`,
`statement_vtab_rowid`) as executable Lean functions, with the SQLite
statement engine modelled as an explicit oracle (a scripted sequence of step
outcomes, plus result/parameter metadata).
-/

set_option maxRecDepth 8000

namespace StatementVtab

/-- SQLite result code `SQLITE_OK` (sqlite3.h). -/
def SQLITE_OK : Nat := 0

/-- SQLite result code `SQLITE_ERROR`. -/
def SQLITE_ERROR : Nat := 1

/-- SQLite result code `SQLITE_NOMEM`. -/
def SQLITE_NOMEM : Nat := 7

/-- SQLite result code `SQLITE_CONSTRAINT`. -/
def SQLITE_CONSTRAINT : Nat := 19

/-- SQLite result code `SQLITE_MISUSE`. -/
def SQLITE_MISUSE : Nat := 21

/-- SQLite result code `SQLITE_RANGE` (bind index out of range). -/
def SQLITE_RANGE : Nat := 25

/-- SQLite result code `SQLITE_ROW`. -/
def SQLITE_ROW : Nat := 100

/-- SQLite result code `SQLITE_DONE`. -/
def SQLITE_DONE : Nat := 101

/-- SQLite constraint operator `SQLITE_INDEX_CONSTRAINT_EQ`. -/
def SQLITE_INDEX_CONSTRAINT_EQ : Nat := 2

/-- One entry of `sqlite3_index_info.aConstraint`: the constrained column
(`iColumn`, which is `-1` for a rowid constraint), the operator, and the
`usable` flag. -/
structure Constraint where
  iColumn : Int
  op : Nat
  usable : Bool
deriving DecidableEq

/-- One entry of `sqlite3_index_info.aConstraintUsage`: the 1-based argument
position handed to `xFilter` (0 meaning "not consumed") and the `omit` flag.
SQLite zero-initializes these before calling `xBestIndex`. -/
structure Usage where
  argvIndex : Nat
  omitFlag : Bool
deriving DecidableEq

/-- Intermediate state of the first loop of `statement_vtab_best_index`
(lines 214-235 of `src/statement_vtab.c`): the usage entries written so far,
`col_max`, the `used_cols` bitmask (a C `sqlite3_uint64`; bits are only ever
set below position 64, so a `Nat` is an exact model), and `out_constraints`. -/
structure ScanState where
  usage : List Usage
  col_max : Nat
  used_cols : Nat
  out_constraints : Nat
deriving DecidableEq

/-- The first loop of `statement_vtab_best_index` (lines 216-235).  Walks the
constraints in order; output-column constraints (`iColumn < num_outputs`,
which also covers `iColumn = -1`) are skipped, leaving their zeroed usage
entry; a hidden-column constraint that is unusable or whose operator is not
equality aborts the whole call with `SQLITE_CONSTRAINT` (modelled as `none`);
a usable equality constraint on hidden column `col_index` gets
`argvIndex = col_index+1`, `omit = 1`, and updates `col_max`, `used_cols`
(only for `col_index < 64`) and `out_constraints`. -/
def bestIndexScan (num_outputs : Nat) : List Constraint → ScanState → Option ScanState
  | [], st => some st
  | c :: cs, st =>
    if c.iColumn < (num_outputs : Int) then
      bestIndexScan num_outputs cs { st with usage := st.usage ++ [⟨0, false⟩] }
    else if ¬ c.usable ∨ c.op ≠ SQLITE_INDEX_CONSTRAINT_EQ then
      none
    else
      let col_index : Nat := (c.iColumn - (num_outputs : Int)).toNat
      bestIndexScan num_outputs cs
        { usage := st.usage ++ [⟨col_index + 1, true⟩],
          col_max := max st.col_max (col_index + 1),
          used_cols :=
            if col_index < 64 then st.used_cols ||| (1 <<< col_index) else st.used_cols,
          out_constraints := st.out_constraints + 1 }

/-- Result of `statement_vtab_best_index` on success: the final
`aConstraintUsage` entries and, when the explicit mapping path is taken, the
`idxStr` column map (an `int` array in C, holding 1-based statement-parameter
indices, one per argument position). -/
structure BestIndexOut where
  usage : List Usage
  idxStr : Option (List Nat)
deriving DecidableEq

/-- The remapping loop of `statement_vtab_best_index` (lines 252-258): walk
the usage entries in order; each entry with a nonzero `argvIndex` contributes
its old `argvIndex` to `colmap` and is densely renumbered `++argc`. -/
def remap : List Usage → Nat → List Usage × List Nat
  | [], _ => ([], [])
  | u :: us, argc =>
    if u.argvIndex ≠ 0 then
      let r := remap us (argc + 1)
      (⟨argc + 1, u.omitFlag⟩ :: r.1, u.argvIndex :: r.2)
    else
      let r := remap us argc
      (u :: r.1, r.2)

/-- Line 242 of the C source:
`(col_max < 64 ? 1ull << col_max : 0ull) - 1` in `sqlite3_uint64` arithmetic;
when `col_max ≥ 64` the unsigned subtraction wraps to `2^64 - 1`.  We model
the wrap exactly with addition of `2^64 - 1` modulo `2^64`. -/
def required_cols (col_max : Nat) : Nat :=
  ((if col_max < 64 then 1 <<< col_max else 0) + (2 ^ 64 - 1)) % 2 ^ 64

/-- Model of `statement_vtab_best_index` (lines 208-264 of `src/statement_vtab.c`).
Cost fields (`estimatedCost = 1`, `estimatedRows = 1`,
`orderByConsumed = 0`) are constants in the C code and are not modelled.
The `sqlite3_malloc64` of the column map is assumed to succeed (its failure
path merely returns `SQLITE_NOMEM`). -/
def statement_vtab_best_index (num_outputs : Nat) (cs : List Constraint) :
    Except Nat BestIndexOut :=
  match bestIndexScan num_outputs cs ⟨[], 0, 0, 0⟩ with
  | none => .error SQLITE_CONSTRAINT
  | some st =>
    if st.out_constraints = 0 ∨ (st.col_max ≤ 64 ∧ st.used_cols = required_cols st.col_max) then
      .ok ⟨st.usage, none⟩
    else
      let r := remap st.usage 0
      .ok ⟨r.1, some r.2⟩

/-- Hidden-column indices (0-based, relative to the first hidden column) of
the constraints that target hidden columns, in constraint order. -/
def hiddenColsList (num_outputs : Nat) (cs : List Constraint) : List Nat :=
  (cs.filter (fun c => (num_outputs : Int) ≤ c.iColumn)).map
    (fun c => (c.iColumn - (num_outputs : Int)).toNat)

/-- The usage entries as assigned by the first loop: an output-column
constraint keeps `⟨0, false⟩`; a hidden-column constraint on column `c` gets
argument position `c+1` with `omit` set. -/
def usagePhase1 (num_outputs : Nat) (cs : List Constraint) : List Usage :=
  cs.map (fun c =>
    if c.iColumn < (num_outputs : Int) then ⟨0, false⟩
    else ⟨(c.iColumn - (num_outputs : Int)).toNat + 1, true⟩)

/-- The usage entries after dense renumbering: the k-th hidden-column
constraint (in constraint order, counting from `k = 0`) gets argument
position `k+1`; output-column constraints keep `⟨0, false⟩`. -/
def denseUsage (num_outputs : Nat) : List Constraint → Nat → List Usage
  | [], _ => []
  | c :: cs, k =>
    if c.iColumn < (num_outputs : Int) then ⟨0, false⟩ :: denseUsage num_outputs cs k
    else ⟨k + 1, true⟩ :: denseUsage num_outputs cs (k + 1)

/-- The `col_max` value as computed by the first loop, as a fold over the hidden column
indices. -/
def colMaxAcc (l : List Nat) : Nat := l.foldl (fun m c => max m (c + 1)) 0

/-- The `used_cols` value as computed by the first loop, as a fold over the hidden
column indices. -/
def usedColsAcc (l : List Nat) : Nat :=
  l.foldl (fun u c => if c < 64 then u ||| (1 <<< c) else u) 0

/-- The request with the output-column constraints removed (used to state
that they have no effect on the planning outcome). -/
def hiddenOnly (num_outputs : Nat) (cs : List Constraint) : List Constraint :=
  cs.filter (fun c => (num_outputs : Int) ≤ c.iColumn)

/-- Planning outcome projection: the result code, and on success the
identity-versus-explicit-map decision together with the map itself. -/
def planOutcome (r : Except Nat BestIndexOut) : Except Nat (Option (List Nat)) :=
  r.map (·.idxStr)

/-! ## Cursor model

The prepared statement (`sqlite3_stmt`) is modelled as an oracle: a script of
step outcomes (each `sqlite3_step` call consumes the next entry; a row entry
carries the row's column values), together with the bind-parameter count and
the current bindings.  `V` is the type of SQL values (`sqlite3_value`). -/

/-- One outcome of `sqlite3_step`: a produced row (with its column values),
normal completion, or an error code. -/
inductive StepEntry (V : Type) where
  | row (vals : List V)
  | done
  | error (code : Nat)
deriving DecidableEq

/-- Model of one `sqlite3_stmt` instance: its parameter count, the scripted
step outcomes after a reset, the outcomes not yet consumed, the row it is
currently positioned on (if any), and the accumulated bindings. -/
structure StmtExec (V : Type) where
  num_params : Nat
  script : List (StepEntry V)
  remaining : List (StepEntry V)
  current : Option (List V)
  bindings : List (Nat × V)
deriving DecidableEq

/-- Model of `sqlite3_step`: consume the next scripted outcome; stepping past
the end of the script reports `SQLITE_DONE`. -/
def sqlite3_step {V : Type} (s : StmtExec V) : Nat × StmtExec V :=
  match s.remaining with
  | [] => (SQLITE_DONE, { s with current := none })
  | .row vals :: rest => (SQLITE_ROW, { s with remaining := rest, current := some vals })
  | .done :: rest => (SQLITE_DONE, { s with remaining := rest, current := none })
  | .error c :: rest => (c, { s with remaining := rest, current := none })

/-- Model of `sqlite3_reset`: restart execution; the statement is no longer
positioned on a row. -/
def sqlite3_reset {V : Type} (s : StmtExec V) : StmtExec V :=
  { s with remaining := s.script, current := none }

/-- Model of `sqlite3_clear_bindings`. -/
def sqlite3_clear_bindings {V : Type} (s : StmtExec V) : StmtExec V :=
  { s with bindings := [] }

/-- Model of `sqlite3_bind_value`: parameter positions are 1-based and must
not exceed the statement's parameter count (`SQLITE_RANGE` otherwise). -/
def sqlite3_bind_value {V : Type} (s : StmtExec V) (pos : Nat) (v : V) : Nat × StmtExec V :=
  if 1 ≤ pos ∧ pos ≤ s.num_params then
    (SQLITE_OK, { s with bindings := s.bindings ++ [(pos, v)] })
  else (SQLITE_RANGE, s)

/-- Model of `sqlite3_column_value`: the current row's value at a column
index (none when the statement is not positioned on a row or the index is out
of range). -/
def sqlite3_column_value {V : Type} (s : StmtExec V) (i : Nat) : Option V :=
  s.current.bind (fun r => r.get? i)

/-- Model of `sqlite3_stmt_busy`: the statement has produced a row that has
not been consumed by a reset / completion. -/
def sqlite3_stmt_busy {V : Type} (s : StmtExec V) : Bool :=
  s.current.isSome

/-- Model of `struct statement_cursor` (lines 23-29 of `src/statement_vtab.c`): the
statement instance, `rowid`, and the shallow-copied argument vector
(`param_argv` restricted to its first `param_argc` entries, which is all the
code ever reads). -/
structure StatementCursor (V : Type) where
  stmt : StmtExec V
  rowid : Int
  param_argv : List V
deriving DecidableEq

/-- Model of `statement_vtab_open` (lines 136-145): allocate a cursor and prepare a
fresh statement instance.  The C cursor memory is uninitialized
(`sqlite3_malloc64` without memset), so `rowid` and the argument buffer start
as arbitrary junk values, passed here explicitly. -/
def statement_vtab_open {V : Type} (script : List (StepEntry V)) (num_params : Nat)
    (junk_rowid : Int) (junk_argv : List V) : StatementCursor V :=
  { stmt := { num_params := num_params, script := script, remaining := script,
              current := none, bindings := [] },
    rowid := junk_rowid, param_argv := junk_argv }

/-- Model of `statement_vtab_next` (lines 155-163): step once; on `SQLITE_ROW`
increment `rowid` and report `SQLITE_OK`; on `SQLITE_DONE` report `SQLITE_OK`
without touching `rowid`; otherwise propagate the step error, also without
touching `rowid`. -/
def statement_vtab_next {V : Type} (cur : StatementCursor V) : Nat × StatementCursor V :=
  let r := sqlite3_step cur.stmt
  if r.1 = SQLITE_ROW then
    (SQLITE_OK, { cur with stmt := r.2, rowid := cur.rowid + 1 })
  else
    (if r.1 = SQLITE_DONE then SQLITE_OK else r.1, { cur with stmt := r.2 })

/-- Model of `statement_vtab_rowid` (lines 165-168). -/
def statement_vtab_rowid {V : Type} (cur : StatementCursor V) : Int :=
  cur.rowid

/-- Model of `statement_vtab_eof` (lines 170-172): at end iff the statement is not
positioned on a produced row. -/
def statement_vtab_eof {V : Type} (cur : StatementCursor V) : Bool :=
  ! sqlite3_stmt_busy cur.stmt

/-- Model of `statement_vtab_column` (lines 174-182): output columns read the current
row; the next `param_argc` columns read the pass-through argument vector; any
later column leaves the result context unset (null).  The return code is
always `SQLITE_OK`. -/
def statement_vtab_column {V : Type} (num_outputs : Nat) (cur : StatementCursor V)
    (i : Nat) : Option V × Nat :=
  if i < num_outputs then
    (sqlite3_column_value cur.stmt i, SQLITE_OK)
  else if i - num_outputs < cur.param_argv.length then
    (cur.param_argv.get? (i - num_outputs), SQLITE_OK)
  else
    (none, SQLITE_OK)

/-- The bind loop of `statement_vtab_filter` (lines 194-196): bind
`argv[i]` at parameter position `idxStr[i]` when an explicit column map was
attached, at position `i+1` otherwise; stop at the first bind error. -/
def bindLoop {V : Type} (s : StmtExec V) (idxStr : Option (List Nat)) :
    List V → Nat → Nat × StmtExec V
  | [], _ => (SQLITE_OK, s)
  | v :: vs, i =>
    let pos := match idxStr with
      | some l => l.getD i 0
      | none => i + 1
    let r := sqlite3_bind_value s pos v
    if r.1 ≠ SQLITE_OK then (r.1, r.2)
    else bindLoop r.2 idxStr vs (i + 1)

/-- Model of `statement_vtab_filter` (lines 186-206): set `rowid` to 1, reset the
statement and clear its bindings, bind the argument vector (propagating any
bind error), perform the first step (propagating any outcome other than
`SQLITE_ROW` / `SQLITE_DONE`), and on success shallow-copy the argument
vector for pass-through column reads. -/
def statement_vtab_filter {V : Type} (cur : StatementCursor V)
    (idxStr : Option (List Nat)) (argv : List V) : Nat × StatementCursor V :=
  let cur1 := { cur with rowid := 1 }
  let stmt0 := sqlite3_clear_bindings (sqlite3_reset cur1.stmt)
  let b := bindLoop stmt0 idxStr argv 0
  if b.1 ≠ SQLITE_OK then (b.1, { cur1 with stmt := b.2 })
  else
    let r := sqlite3_step b.2
    if ¬ (r.1 = SQLITE_ROW ∨ r.1 = SQLITE_DONE) then (r.1, { cur1 with stmt := r.2 })
    else (SQLITE_OK, { cur1 with stmt := r.2, param_argv := argv })

/-- Iterated `statement_vtab_next` (the returned cursor after `n` advance
calls). -/
def nextN {V : Type} : Nat → StatementCursor V → StatementCursor V
  | 0, cur => cur
  | n + 1, cur => nextN n (statement_vtab_next cur).2

/-- A scripted step outcome is well formed when an error entry does not
masquerade as one of the non-error step results (`sqlite3_step` never returns
`SQLITE_OK`, and errors are distinct from `SQLITE_ROW` / `SQLITE_DONE`). -/
def wfEntry {V : Type} : StepEntry V → Bool
  | .error c => decide (c ≠ SQLITE_OK ∧ c ≠ SQLITE_ROW ∧ c ≠ SQLITE_DONE)
  | _ => true

/-- All entries of a step script are well formed. -/
def wfScript {V : Type} (l : List (StepEntry V)) : Bool :=
  l.all wfEntry

/-! ## Schema derivation and relation creation

`build_create_statement` and `statement_vtab_create` work on the prepared
statement's metadata only: the ordered result columns (name, which SQLite can
fail to produce, and optional declared type), the ordered bind-parameter
names (nullable, and carrying their leading sigil when present), and the
read-only flag.  `sqlite3_prepare_v2` is modelled as an oracle from query
text to this metadata or an error (code and `sqlite3_errmsg` text);
`sqlite3_declare_vtab` is modelled as succeeding. -/

/-- Metadata of one result column of a prepared statement. -/
structure ColMeta where
  name : Option String
  decltype : Option String
deriving DecidableEq

/-- Metadata of a prepared statement: read-only flag, result columns in
order, and bind-parameter names in order (`none` for unnamed parameters; a
named parameter's string includes its leading sigil character). -/
structure StmtMeta where
  readonly : Bool
  cols : List ColMeta
  params : List (Option String)
deriving DecidableEq

/-- The single-quote character, written by code point to keep the source
ASCII-clean. -/
def squote : Char := Char.ofNat 39

/-- SQLite's `%Q` format without the NULL case: the string single-quoted,
with every embedded single quote doubled. -/
def quoteQ (s : String) : String :=
  String.singleton squote ++
    String.mk (s.data.foldr (fun c acc => if c = squote then c :: c :: acc else c :: acc) []) ++
    String.singleton squote

/-- The output-column loop of `build_create_statement` (lines 34-42): for
each result column append `%Q %s,` (quoted name, space, declared type or
empty); a column with no retrievable name aborts with `NULL` (`none`). -/
def colClauses : List ColMeta → Option String
  | [] => some ""
  | c :: cs =>
    match c.name with
    | none => none
    | some n =>
      (colClauses cs).map (fun rest =>
        quoteQ n ++ " " ++ c.decltype.getD "" ++ "," ++ rest)

/-- The parameter loop of `build_create_statement` (lines 43-49): the
parameter at 0-based position `i` appends `%Q hidden,` with its name minus
the leading sigil when named, and `'%d' hidden,` with the 1-based ordinal
`i+1` when unnamed. -/
def paramClauses : List (Option String) → Nat → String
  | [], _ => ""
  | p :: ps, i =>
    (match p with
     | some n => quoteQ (n.drop 1) ++ " hidden,"
     | none => String.singleton squote ++ toString (i + 1) ++ String.singleton squote
               ++ " hidden,") ++ paramClauses ps (i + 1)

/-- Model of `build_create_statement` (lines 31-53): build
`CREATE TABLE x( <column clauses>` and overwrite the final character (the
trailing comma, or the opening space when there are no columns) with `)`.
Returns `none` when some output column is unnamable, or — modelled by the
`alloc_ok` flag — when the `sqlite3_str` allocation fails; the C caller
cannot tell these two cases apart. -/
def build_create_statement (alloc_ok : Bool) (m : StmtMeta) : Option String :=
  if alloc_ok = false then none
  else
    match colClauses m.cols with
    | none => none
    | some outs =>
      let s := "CREATE TABLE x( " ++ outs ++ paramClauses m.params 0
      if s.data = [] then some s
      else some (String.mk (s.data.dropLast ++ [')']))

/-- Model of `struct statement_vtab` (lines 14-21) as far as it is observable after a
successful create: the stored statement body, the input/output counts, and
the schema text passed to `sqlite3_declare_vtab`. -/
structure statement_vtab where
  sql : String
  num_inputs : Nat
  num_outputs : Nat
  schema : String
deriving DecidableEq

/-- Model of `statement_vtab_create` (lines 61-129).  `prepare` is the
`sqlite3_prepare_v2` oracle (error = code plus `sqlite3_errmsg` text);
`alloc_ok` models the `sqlite3_str` allocation inside
`build_create_statement`; other allocations and `sqlite3_declare_vtab` are
modelled as succeeding.  Errors carry the result code and the message stored
into `*pzErr` (the `build_create_statement` failure path stores none). -/
def statement_vtab_create (prepare : String → Except (Nat × String) StmtMeta)
    (alloc_ok : Bool) (args : List String) :
    Except (Nat × Option String) statement_vtab :=
  if args.length < 4 ∨ (args.getD 3 "").length < 3 then
    .error (SQLITE_MISUSE, some "no statement provided")
  else
    let a3 := args.getD 3 ""
    if a3.data.head? ≠ some '(' ∨ a3.data.getLast? ≠ some ')' then
      .error (SQLITE_MISUSE, some "statement must be parenthesized")
    else
      let sql := String.mk (a3.data.drop 1).dropLast
      match prepare sql with
      | .error e => .error (e.1, some e.2)
      | .ok m =>
        if m.readonly = false then
          .error (SQLITE_ERROR, some "Statement must be read only.")
        else
          match build_create_statement alloc_ok m with
          | none => .error (SQLITE_NOMEM, none)
          | some create => .ok ⟨sql, m.params.length, m.cols.length, create⟩

/-- Model of `statement_vtab_connect` (lines 132-134): a distinct function (so the
table is not eponymous) that just calls `statement_vtab_create`. -/
def statement_vtab_connect (prepare : String → Except (Nat × String) StmtMeta)
    (alloc_ok : Bool) (args : List String) :
    Except (Nat × Option String) statement_vtab :=
  statement_vtab_create prepare alloc_ok args

/-- Declarative schema description (the specification side of claim C8): one
clause per column, output columns first in statement order, then one hidden
input column per bind parameter in parameter order; a named parameter is
named after its name minus the leading sigil, an unnamed one after its
1-based ordinal rendered as text. -/
def schemaEntries (m : StmtMeta) : List String :=
  m.cols.map (fun c => quoteQ (c.name.getD "") ++ " " ++ c.decltype.getD "")
  ++ m.params.enum.map (fun q =>
      match q.2 with
      | some n => quoteQ (n.drop 1) ++ " hidden"
      | none => String.singleton squote ++ toString (q.1 + 1) ++ String.singleton squote
                ++ " hidden")

/-- Comma-separated rendering of schema clauses. -/
def sepByComma : List String → String
  | [] => ""
  | [e] => e
  | e :: es => e ++ "," ++ sepByComma es

/-- Comma-terminated rendering of schema clauses (each clause followed by a
comma, as the C loops emit them). -/
def commaText : List String → String
  | [] => ""
  | e :: es => e ++ "," ++ commaText es

/-! ## Planner lemmas -/

/-- A successful first loop implies that every hidden-column constraint was a
usable equality (otherwise the loop would have aborted). -/
theorem bestIndexScan_good (no : Nat) :
    ∀ (cs : List Constraint) (st r : ScanState), bestIndexScan no cs st = some r →
      ∀ c ∈ cs, (no : Int) ≤ c.iColumn →
        c.usable = true ∧ c.op = SQLITE_INDEX_CONSTRAINT_EQ := by
  intro cs
  induction cs with
  | nil => intro st r _ c hc; simp at hc
  | cons a cs ih =>
    intro st r h c hc hcol
    rw [bestIndexScan] at h
    rcases List.mem_cons.mp hc with rfl | hc2
    · split at h
      · exact absurd hcol (not_le.mpr (by assumption))
      · split at h
        · exact absurd h (by simp)
        · rename_i hgood
          push_neg at hgood
          exact ⟨hgood.1, hgood.2⟩
    · split at h
      · exact ih _ _ h c hc2 hcol
      · split at h
        · exact absurd h (by simp)
        · exact ih _ _ h c hc2 hcol

/-- When every hidden-column constraint is a usable equality, the first loop
succeeds and computes exactly the phase-1 usage entries and the folds of the
hidden column indices. -/
theorem bestIndexScan_eq (no : Nat) :
    ∀ (cs : List Constraint) (st : ScanState),
      (∀ c ∈ cs, (no : Int) ≤ c.iColumn →
        c.usable = true ∧ c.op = SQLITE_INDEX_CONSTRAINT_EQ) →
      bestIndexScan no cs st = some
        { usage := st.usage ++ usagePhase1 no cs,
          col_max := (hiddenColsList no cs).foldl (fun m c => max m (c + 1)) st.col_max,
          used_cols := (hiddenColsList no cs).foldl
            (fun u c => if c < 64 then u ||| (1 <<< c) else u) st.used_cols,
          out_constraints := st.out_constraints + (hiddenColsList no cs).length } := by
  intro cs
  induction cs with
  | nil => intro st _; simp [bestIndexScan, usagePhase1, hiddenColsList]
  | cons a cs ih =>
    intro st hok
    rw [bestIndexScan]
    by_cases hcol : a.iColumn < (no : Int)
    · rw [if_pos hcol, ih _ (fun c hc => hok c (List.mem_cons_of_mem a hc))]
      have hfilter : ((no : Int) ≤ a.iColumn) = False := by
        simp [not_le.mpr hcol]
      simp [usagePhase1, hiddenColsList, hfilter, hcol, not_le.mpr hcol, List.filter_cons]
    · have hgood := hok a (List.mem_cons_self a cs) (not_lt.mp hcol)
      rw [if_neg hcol, if_neg (by simp [hgood.1, hgood.2])]
      rw [ih _ (fun c hc => hok c (List.mem_cons_of_mem a hc))]
      have hle : (no : Int) ≤ a.iColumn := not_lt.mp hcol
      simp [usagePhase1, hiddenColsList, hcol, hle, List.filter_cons, Nat.add_assoc,
        Nat.add_comm 1]

/-- Generalized-accumulator form of the `col_max` fold. -/
theorem foldl_max_acc (l : List Nat) :
    ∀ a : Nat, l.foldl (fun m c => max m (c + 1)) a = max a (colMaxAcc l) := by
  induction l with
  | nil => intro a; simp [colMaxAcc]
  | cons c l ih =>
    intro a
    have hc : colMaxAcc (c :: l) = max (c + 1) (colMaxAcc l) := by
      show List.foldl _ (max 0 (c + 1)) l = _
      rw [ih]
      simp
    rw [List.foldl_cons, ih, hc, Nat.max_assoc]

/-- The `col_max` fold over `c :: l`. -/
theorem colMaxAcc_cons (c : Nat) (l : List Nat) :
    colMaxAcc (c :: l) = max (c + 1) (colMaxAcc l) := by
  show List.foldl _ (max 0 (c + 1)) l = _
  rw [foldl_max_acc]
  simp

/-- Every member is below the `col_max` fold. -/
theorem lt_colMaxAcc_of_mem {l : List Nat} {c : Nat} (h : c ∈ l) : c < colMaxAcc l := by
  induction l with
  | nil => simp at h
  | cons a l ih =>
    rw [colMaxAcc_cons]
    rcases List.mem_cons.mp h with rfl | h2
    · omega
    · have := ih h2; omega

/-- The `col_max` fold is bounded by any bound on the members. -/
theorem colMaxAcc_le {l : List Nat} {k : Nat} (h : ∀ c ∈ l, c + 1 ≤ k) :
    colMaxAcc l ≤ k := by
  induction l with
  | nil => simp [colMaxAcc]
  | cons a l ih =>
    rw [colMaxAcc_cons]
    have h1 := h a (List.mem_cons_self a l)
    have h2 := ih (fun c hc => h c (List.mem_cons_of_mem a hc))
    omega

/-- When the members of `l` are exactly the naturals below `m`, the `col_max`
fold equals `m`. -/
theorem colMaxAcc_eq {l : List Nat} {m : Nat} (hset : ∀ j, j ∈ l ↔ j < m) :
    colMaxAcc l = m := by
  rcases Nat.eq_zero_or_pos m with rfl | hm
  · have : l = [] := List.eq_nil_iff_forall_not_mem.mpr (fun j hj => by
      have := (hset j).mp hj; omega)
    simp [this, colMaxAcc]
  · have hle : colMaxAcc l ≤ m := colMaxAcc_le (fun c hc => (hset c).mp hc)
    have hmem : m - 1 ∈ l := (hset (m - 1)).mpr (by omega)
    have := lt_colMaxAcc_of_mem hmem
    omega

/-- Generalized-accumulator form of the `used_cols` fold. -/
theorem foldl_or_acc (l : List Nat) :
    ∀ a : Nat, l.foldl (fun u c => if c < 64 then u ||| (1 <<< c) else u) a
      = a ||| usedColsAcc l := by
  induction l with
  | nil => intro a; simp [usedColsAcc]
  | cons c l ih =>
    intro a
    have hc : usedColsAcc (c :: l)
        = (if c < 64 then (1 : Nat) <<< c else 0) ||| usedColsAcc l := by
      show List.foldl _ (if c < 64 then 0 ||| (1 <<< c) else 0) l = _
      rw [ih]
      split <;> simp
    rw [List.foldl_cons, ih, hc]
    split <;> simp [Nat.lor_assoc]

/-- Bit `j` of the `used_cols` fold is set exactly when `j` is a member below
64 (members at 64 or above are not tracked in the mask). -/
theorem testBit_usedColsAcc (l : List Nat) (j : Nat) :
    (usedColsAcc l).testBit j = decide (j ∈ l ∧ j < 64) := by
  induction l with
  | nil => simp [usedColsAcc]
  | cons c l ih =>
    have hc : usedColsAcc (c :: l)
        = (if c < 64 then (1 : Nat) <<< c else 0) ||| usedColsAcc l := by
      show List.foldl _ (if c < 64 then 0 ||| (1 <<< c) else 0) l = _
      rw [foldl_or_acc]
      split <;> simp
    rw [hc, Nat.testBit_lor, ih]
    by_cases h64 : c < 64
    · rw [if_pos h64, Nat.shiftLeft_eq, one_mul, Nat.testBit_two_pow]
      by_cases hcj : c = j
      · subst hcj; simp [h64]
      · have hjc : ¬ j = c := fun hh => hcj hh.symm
        simp [hcj, hjc]
    · rw [if_neg h64]
      simp only [List.mem_cons, Nat.zero_testBit, Bool.false_or]
      by_cases hcj : j = c
      · subst hcj; simp [h64]
      · simp [hcj]

/-- When the members of `l` are exactly the naturals below `m ≤ 64`, the
`used_cols` mask is the low-`m`-bits mask. -/
theorem usedColsAcc_eq {l : List Nat} {m : Nat} (hm : m ≤ 64)
    (hset : ∀ j, j ∈ l ↔ j < m) : usedColsAcc l = 2 ^ m - 1 := by
  apply Nat.eq_of_testBit_eq
  intro j
  rw [testBit_usedColsAcc, Nat.testBit_two_pow_sub_one]
  by_cases hj : j < m
  · have hj64 : j < 64 := by omega
    simp [hj, (hset j).mpr hj, hj64]
  · have hnotmem : ¬ j ∈ l := fun hh => hj ((hset j).mp hh)
    simp [hnotmem, hj]

/-- The `required_cols` value in closed form for the reachable range of `col_max`. -/
theorem required_cols_eq {m : Nat} (hm : m ≤ 64) : required_cols m = 2 ^ m - 1 := by
  rw [required_cols]
  rcases Nat.lt_or_ge m 64 with h | h
  · rw [if_pos h, Nat.shiftLeft_eq, one_mul]
    have h1 : 1 ≤ 2 ^ m := Nat.one_le_two_pow
    have h2 : 2 ^ m < 2 ^ 64 := Nat.pow_lt_pow_right (by norm_num) h
    have h3 : (2 : Nat) ^ 64 = 18446744073709551616 := by norm_num
    omega
  · have hm64 : m = 64 := by omega
    subst hm64
    norm_num

/-- Remapping the phase-1 usage entries yields the densely renumbered entries
and the column map listing `c+1` for each hidden-column constraint in walk
order. -/
theorem remap_usagePhase1 (no : Nat) :
    ∀ (cs : List Constraint) (k : Nat),
      remap (usagePhase1 no cs) k
        = (denseUsage no cs k, (hiddenColsList no cs).map (· + 1)) := by
  intro cs
  induction cs with
  | nil => intro k; simp [usagePhase1, hiddenColsList, remap, denseUsage]
  | cons a cs ih =>
    intro k
    by_cases hcol : a.iColumn < (no : Int)
    · have h1 : usagePhase1 no (a :: cs) = ⟨0, false⟩ :: usagePhase1 no cs := by
        simp [usagePhase1, hcol]
      rw [h1, remap, if_neg (by simp), ih]
      have h2 : hiddenColsList no (a :: cs) = hiddenColsList no cs := by
        simp [hiddenColsList, List.filter_cons, not_le.mpr hcol]
      simp [denseUsage, hcol, h2]
    · have hle : (no : Int) ≤ a.iColumn := not_lt.mp hcol
      have h1 : usagePhase1 no (a :: cs)
          = ⟨(a.iColumn - (no : Int)).toNat + 1, true⟩ :: usagePhase1 no cs := by
        simp [usagePhase1, hcol]
      rw [h1, remap, if_pos (by simp), ih]
      have h2 : hiddenColsList no (a :: cs)
          = (a.iColumn - (no : Int)).toNat :: hiddenColsList no cs := by
        simp [hiddenColsList, List.filter_cons, hle]
      simp [denseUsage, hcol, h2]

/-- Remapping ignores the entries with argument position 0: the produced
column map only depends on the consumed entries. -/
theorem remap_filter :
    ∀ (u : List Usage) (k : Nat),
      (remap (u.filter (fun x => x.argvIndex ≠ 0)) k).2 = (remap u k).2 := by
  intro u
  induction u with
  | nil => intro k; simp [remap]
  | cons a u ih =>
    intro k
    by_cases ha : a.argvIndex = 0
    · rw [List.filter_cons, if_neg (by simp [ha]), remap, if_neg (by simp [ha]), ih]
    · rw [List.filter_cons, if_pos (by simp [ha]), remap, if_pos (by simp [ha]),
        remap, if_pos (by simp [ha])]
      simpa using ih (k + 1)

/-- Remapping leaves an unconsumed entry (argument position 0) unchanged at
its position. -/
theorem remap_get_zero :
    ∀ (u : List Usage) (k i : Nat) (b : Bool), u.get? i = some ⟨0, b⟩ →
      (remap u k).1.get? i = some ⟨0, b⟩ := by
  intro u
  induction u with
  | nil => intro k i b h; simp at h
  | cons a u ih =>
    intro k i b h
    cases i with
    | zero =>
      simp at h
      rw [remap, if_neg (by simp [h])]
      simp [h]
    | succ i =>
      simp at h
      by_cases ha : a.argvIndex = 0
      · rw [remap, if_neg (by simp [ha])]
        simpa using ih k i b (by simpa using h)
      · rw [remap, if_pos (by simp [ha])]
        simpa using ih (k + 1) i b (by simpa using h)

/-! ## Claim theorems: the constraint planner -/

/-- C1: any hidden-column predicate that is unusable or whose operator is not
equality makes the whole candidate plan infeasible (`SQLITE_CONSTRAINT`),
regardless of the other predicates. -/
theorem best_index_infeasible (no : Nat) (cs : List Constraint)
    (h : ∃ c ∈ cs, (no : Int) ≤ c.iColumn ∧
      (c.usable = false ∨ c.op ≠ SQLITE_INDEX_CONSTRAINT_EQ)) :
    statement_vtab_best_index no cs = .error SQLITE_CONSTRAINT := by
  obtain ⟨c, hc, hcol, hbad⟩ := h
  rw [statement_vtab_best_index]
  cases hscan : bestIndexScan no cs ⟨[], 0, 0, 0⟩ with
  | none => rfl
  | some r =>
    exfalso
    obtain ⟨hu, he⟩ := bestIndexScan_good no cs _ _ hscan c hc hcol
    rcases hbad with hb | hb
    · rw [hu] at hb; exact Bool.noConfusion hb
    · exact hb he

/-- Witness for C1: with one output column, an unusable equality predicate on
hidden column 0 defeats the plan even though hidden column 1 carries a usable
equality predicate. -/
theorem best_index_infeasible_witness :
    statement_vtab_best_index 1 [⟨1, 2, false⟩, ⟨2, 2, true⟩] = .error SQLITE_CONSTRAINT :=
  best_index_infeasible 1 [⟨1, 2, false⟩, ⟨2, 2, true⟩]
    ⟨⟨1, 2, false⟩, by decide, by decide, Or.inl rfl⟩

/-- When every hidden-column constraint is a usable equality, the planner
boils down to the contiguity test on the fold values of the hidden column
indices, returning the phase-1 usage on the identity path and the densely
renumbered usage plus explicit column map otherwise. -/
theorem best_index_good_eq (no : Nat) (cs : List Constraint)
    (hok : ∀ c ∈ cs, (no : Int) ≤ c.iColumn →
      c.usable = true ∧ c.op = SQLITE_INDEX_CONSTRAINT_EQ) :
    statement_vtab_best_index no cs =
      if (hiddenColsList no cs).length = 0 ∨
          (colMaxAcc (hiddenColsList no cs) ≤ 64 ∧
            usedColsAcc (hiddenColsList no cs)
              = required_cols (colMaxAcc (hiddenColsList no cs)))
      then .ok ⟨usagePhase1 no cs, none⟩
      else .ok ⟨denseUsage no cs 0, some ((hiddenColsList no cs).map (· + 1))⟩ := by
  rw [statement_vtab_best_index, bestIndexScan_eq no cs _ hok]
  dsimp only
  rw [List.nil_append, Nat.zero_add, remap_usagePhase1]
  rfl

/-- C2: when the hidden-column indices matched by (usable, equality)
predicates are exactly the contiguous range below `m` (at most 64 columns),
the planner returns the identity argument order — each consumed predicate on
hidden column `c` keeps argument position `c+1`, the omit flag is set, and no
explicit index map is attached; with no hidden-column predicate (`m = 0`)
this degenerates to the trivially usable plan with zero bound arguments. -/
theorem best_index_identity (no m : Nat) (cs : List Constraint)
    (hok : ∀ c ∈ cs, (no : Int) ≤ c.iColumn →
      c.usable = true ∧ c.op = SQLITE_INDEX_CONSTRAINT_EQ)
    (hm : m ≤ 64)
    (hset : ∀ j, j ∈ hiddenColsList no cs ↔ j < m) :
    statement_vtab_best_index no cs = .ok ⟨usagePhase1 no cs, none⟩ := by
  rw [best_index_good_eq no cs hok, if_pos]
  right
  rw [colMaxAcc_eq hset, usedColsAcc_eq hm hset, required_cols_eq hm]
  exact ⟨hm, rfl⟩

/-- Witness for C2: one output column, usable equality predicates on hidden
columns 0, 1, 2 (plus an ignored predicate on the output column): the plan is
the identity order `c ↦ c+1` with no index map. -/
theorem best_index_identity_witness :
    (∀ c ∈ ([⟨0, 5, true⟩, ⟨1, 2, true⟩, ⟨2, 2, true⟩, ⟨3, 2, true⟩] : List Constraint),
        (1 : Int) ≤ c.iColumn → c.usable = true ∧ c.op = SQLITE_INDEX_CONSTRAINT_EQ) ∧
    statement_vtab_best_index 1 [⟨0, 5, true⟩, ⟨1, 2, true⟩, ⟨2, 2, true⟩, ⟨3, 2, true⟩]
      = .ok ⟨[⟨0, false⟩, ⟨1, true⟩, ⟨2, true⟩, ⟨3, true⟩], none⟩ := by
  constructor
  · decide
  · have h := best_index_identity 1 3 [⟨0, 5, true⟩, ⟨1, 2, true⟩, ⟨2, 2, true⟩, ⟨3, 2, true⟩]
      (by decide) (by decide)
      (by
        have hl : hiddenColsList 1 [⟨0, 5, true⟩, ⟨1, 2, true⟩, ⟨2, 2, true⟩, ⟨3, 2, true⟩]
            = [0, 1, 2] := by decide
        intro j
        rw [hl]
        simp only [List.mem_cons, List.not_mem_nil, or_false]
        omega)
    exact h.trans (by rfl)

/-- C3: when the hidden-column indices matched by (usable, equality)
predicates do not form a contiguous range starting at 0 (there is a gap below
the maximum), the planner attaches an explicit index map with one entry per
consumed predicate, recording parameter index `c+1` in walk order, and
renumbers the argument positions densely from 1. -/
theorem best_index_explicit_map (no : Nat) (cs : List Constraint)
    (hok : ∀ c ∈ cs, (no : Int) ≤ c.iColumn →
      c.usable = true ∧ c.op = SQLITE_INDEX_CONSTRAINT_EQ)
    (h64 : ∀ j ∈ hiddenColsList no cs, j < 64)
    (hgap : ∃ j, j < colMaxAcc (hiddenColsList no cs) ∧ ¬ j ∈ hiddenColsList no cs) :
    statement_vtab_best_index no cs =
      .ok ⟨denseUsage no cs 0, some ((hiddenColsList no cs).map (· + 1))⟩ := by
  obtain ⟨j, hjlt, hjmem⟩ := hgap
  have hM : colMaxAcc (hiddenColsList no cs) ≤ 64 :=
    colMaxAcc_le (fun c hc => h64 c hc)
  have hne : usedColsAcc (hiddenColsList no cs)
      ≠ required_cols (colMaxAcc (hiddenColsList no cs)) := by
    rw [required_cols_eq hM]
    intro heq
    have hbit : (usedColsAcc (hiddenColsList no cs)).testBit j
        = ((2 : Nat) ^ colMaxAcc (hiddenColsList no cs) - 1).testBit j := by rw [heq]
    rw [testBit_usedColsAcc, Nat.testBit_two_pow_sub_one] at hbit
    simp [hjmem, hjlt] at hbit
  have hlen : (hiddenColsList no cs).length ≠ 0 := by
    intro h0
    rw [List.length_eq_zero] at h0
    rw [h0] at hjlt
    simp [colMaxAcc] at hjlt
  rw [best_index_good_eq no cs hok, if_neg]
  rintro (h0 | ⟨hle, heq⟩)
  · exact hlen h0
  · exact hne heq

/-- Witness for C3 (the instance named by the claim): with no output columns
and usable equality predicates on hidden columns 0 and 2, the plan carries an
explicit index map of length 2 mapping argument 1 to parameter 1 and argument
2 to parameter 3, with dense argument positions 1, 2. -/
theorem best_index_explicit_map_witness :
    statement_vtab_best_index 0 [⟨0, 2, true⟩, ⟨2, 2, true⟩]
      = .ok ⟨[⟨1, true⟩, ⟨2, true⟩], some [1, 3]⟩ := by
  have h := best_index_explicit_map 0 [⟨0, 2, true⟩, ⟨2, 2, true⟩]
    (by decide) (by decide) ⟨1, by decide, by decide⟩
  exact h.trans (by rfl)

/-- Dropping the output-column constraints does not change which hidden
column indices are matched. -/
theorem hiddenColsList_hiddenOnly (no : Nat) (cs : List Constraint) :
    hiddenColsList no (hiddenOnly no cs) = hiddenColsList no cs := by
  rw [hiddenColsList, hiddenOnly, hiddenColsList, List.filter_filter]
  exact congrArg (List.map _) (List.filter_congr (fun c _ => Bool.and_self _))

/-- The phase-1 usage entry at the position of an output-column constraint is
the zeroed entry. -/
theorem usagePhase1_get_output (no : Nat) (cs : List Constraint) (i : Nat)
    (c : Constraint) (hc : cs.get? i = some c) (hcol : c.iColumn < (no : Int)) :
    (usagePhase1 no cs).get? i = some ⟨0, false⟩ := by
  rw [usagePhase1, List.get?_map, hc]
  simp [hcol]

/-- A successful plan means the first loop succeeded. -/
theorem best_index_ok_scan (no : Nat) (cs : List Constraint) (out : BestIndexOut)
    (h : statement_vtab_best_index no cs = .ok out) :
    ∃ st, bestIndexScan no cs ⟨[], 0, 0, 0⟩ = some st := by
  rw [statement_vtab_best_index] at h
  cases hscan : bestIndexScan no cs ⟨[], 0, 0, 0⟩ with
  | none => rw [hscan] at h; exact absurd h (by simp)
  | some st => exact ⟨st, rfl⟩

/-- C9: output-column predicates are ignored entirely — in every successful
plan their constraint-usage entries keep argument position 0 with the omit
flag unset, and removing them from the request changes neither feasibility
nor the identity-versus-index-map decision (including the map itself). -/
theorem best_index_output_frame (no : Nat) (cs : List Constraint) :
    (∀ out, statement_vtab_best_index no cs = .ok out →
      ∀ i c, cs.get? i = some c → c.iColumn < (no : Int) →
        out.usage.get? i = some ⟨0, false⟩) ∧
    planOutcome (statement_vtab_best_index no cs)
      = planOutcome (statement_vtab_best_index no (hiddenOnly no cs)) := by
  constructor
  · intro out hout i c hc hcol
    obtain ⟨st, hscan⟩ := best_index_ok_scan no cs out hout
    have hok := bestIndexScan_good no cs _ _ hscan
    rw [best_index_good_eq no cs hok] at hout
    split at hout
    · cases hout
      exact usagePhase1_get_output no cs i c hc hcol
    · cases hout
      have h1 : (remap (usagePhase1 no cs) 0).1 = denseUsage no cs 0 := by
        rw [remap_usagePhase1 no cs 0]
      dsimp only
      rw [← h1]
      exact remap_get_zero (usagePhase1 no cs) 0 i false
        (usagePhase1_get_output no cs i c hc hcol)
  · by_cases hok : ∀ c ∈ cs, (no : Int) ≤ c.iColumn →
        c.usable = true ∧ c.op = SQLITE_INDEX_CONSTRAINT_EQ
    · have hok2 : ∀ c ∈ hiddenOnly no cs, (no : Int) ≤ c.iColumn →
          c.usable = true ∧ c.op = SQLITE_INDEX_CONSTRAINT_EQ := by
        intro c hc
        exact hok c (List.mem_of_mem_filter hc)
      rw [best_index_good_eq no cs hok, best_index_good_eq no (hiddenOnly no cs) hok2,
        hiddenColsList_hiddenOnly]
      split <;> rfl
    · push_neg at hok
      obtain ⟨c, hc, hcol, hbad⟩ := hok
      have hbad2 : c.usable = false ∨ c.op ≠ SQLITE_INDEX_CONSTRAINT_EQ := by
        by_cases hu : c.usable = true
        · exact Or.inr (fun he => (hbad hu he).elim)
        · exact Or.inl (Bool.not_eq_true _ ▸ Bool.eq_false_iff.mpr
            (fun ht => hu ht))
      rw [best_index_infeasible no cs ⟨c, hc, hcol, hbad2⟩,
        best_index_infeasible no (hiddenOnly no cs)
          ⟨c, List.mem_filter.mpr ⟨hc, by simpa using hcol⟩, hcol, hbad2⟩]

/-- Witness for C9: an unusable non-equality predicate on the output column
is ignored (zeroed usage entry, feasible plan), and dropping it leaves the
same plan outcome. -/
theorem best_index_output_frame_witness :
    (∃ out, statement_vtab_best_index 1 [⟨0, 7, false⟩, ⟨1, 2, true⟩] = .ok out ∧
      out.usage.get? 0 = some ⟨0, false⟩) ∧
    planOutcome (statement_vtab_best_index 1 [⟨0, 7, false⟩, ⟨1, 2, true⟩])
      = planOutcome (statement_vtab_best_index 1
          (hiddenOnly 1 [⟨0, 7, false⟩, ⟨1, 2, true⟩])) := by
  refine ⟨⟨⟨[⟨0, false⟩, ⟨1, true⟩], none⟩, by rfl, ?_⟩,
    (best_index_output_frame 1 [⟨0, 7, false⟩, ⟨1, 2, true⟩]).2⟩
  exact (best_index_output_frame 1 [⟨0, 7, false⟩, ⟨1, 2, true⟩]).1
    ⟨[⟨0, false⟩, ⟨1, true⟩], none⟩ (by rfl) 0 ⟨0, 7, false⟩ (by rfl) (by decide)

/-! ## Cursor lemmas -/

/-- Advancing never touches the pass-through argument vector. -/
theorem next_param_argv {V : Type} (cur : StatementCursor V) :
    (statement_vtab_next cur).2.param_argv = cur.param_argv := by
  simp only [statement_vtab_next]
  split <;> rfl

/-- Iterated advancing never touches the pass-through argument vector. -/
theorem nextN_param_argv {V : Type} (n : Nat) (cur : StatementCursor V) :
    (nextN n cur).param_argv = cur.param_argv := by
  induction n generalizing cur with
  | zero => rfl
  | succ n ih => rw [nextN, ih, next_param_argv]

/-- Binding a value only touches the binding list of the statement. -/
theorem bind_value_fields {V : Type} (s : StmtExec V) (pos : Nat) (v : V) :
    (sqlite3_bind_value s pos v).2.remaining = s.remaining ∧
    (sqlite3_bind_value s pos v).2.script = s.script := by
  rw [sqlite3_bind_value]
  split <;> exact ⟨rfl, rfl⟩

/-- The bind loop only touches the binding list of the statement. -/
theorem bindLoop_fields {V : Type} (idx : Option (List Nat)) :
    ∀ (vs : List V) (s : StmtExec V) (i : Nat),
      (bindLoop s idx vs i).2.remaining = s.remaining ∧
      (bindLoop s idx vs i).2.script = s.script := by
  intro vs
  induction vs with
  | nil => intro s i; exact ⟨rfl, rfl⟩
  | cons v vs ih =>
    intro s i
    simp only [bindLoop]
    split
    · exact bind_value_fields s _ v
    · constructor
      · rw [(ih _ (i + 1)).1, (bind_value_fields s _ v).1]
      · rw [(ih _ (i + 1)).2, (bind_value_fields s _ v).2]

/-- On a well-formed pending script, a step never reports `SQLITE_OK`. -/
theorem step_ne_ok {V : Type} (s : StmtExec V) (hwf : wfScript s.remaining = true) :
    (sqlite3_step s).1 ≠ SQLITE_OK := by
  rw [sqlite3_step]
  cases hr : s.remaining with
  | nil => simp [SQLITE_DONE, SQLITE_OK]
  | cons e rest =>
    cases e with
    | row vals => simp [SQLITE_ROW, SQLITE_OK]
    | done => simp [SQLITE_DONE, SQLITE_OK]
    | error c =>
      rw [hr] at hwf
      have hce := (List.all_eq_true.mp hwf) (.error c) (List.mem_cons_self _ _)
      simp only [wfEntry, decide_eq_true_eq] at hce
      simpa using hce.1

/-- A successful bind-and-first-step captures the argument vector verbatim
for later pass-through column reads. -/
theorem filter_ok_param_argv {V : Type} (cur : StatementCursor V)
    (idx : Option (List Nat)) (argv : List V)
    (hwf : wfScript cur.stmt.script = true)
    (h : (statement_vtab_filter cur idx argv).1 = SQLITE_OK) :
    (statement_vtab_filter cur idx argv).2.param_argv = argv := by
  simp only [statement_vtab_filter] at h ⊢
  split_ifs at h ⊢ with h1 h2
  · exact absurd h h1
  · rfl
  · exfalso
    dsimp only at h
    refine step_ne_ok _ ?_ h
    rw [(bindLoop_fields idx argv _ 0).1]
    exact hwf

/-! ## Claim theorems: the cursor -/

/-- C4: on every row of a scan that was bound successfully with argument
vector `argv`, reading column `i` yields the statement's current-row value at
`i` for output columns, the unchanged bound input `argv[i - num_outputs]` for
the constrained hidden columns, and null (with a success return code, never
an error) for the remaining columns. -/
theorem column_protocol {V : Type} (no : Nat) (cur0 : StatementCursor V)
    (idx : Option (List Nat)) (argv : List V) (n i : Nat) (row : List V)
    (hwf : wfScript cur0.stmt.script = true)
    (hok : (statement_vtab_filter cur0 idx argv).1 = SQLITE_OK)
    (hrow : (nextN n (statement_vtab_filter cur0 idx argv).2).stmt.current = some row)
    (hlen : no ≤ row.length) :
    statement_vtab_column no (nextN n (statement_vtab_filter cur0 idx argv).2) i =
      if h : i < no then (some (row.get ⟨i, Nat.lt_of_lt_of_le h hlen⟩), SQLITE_OK)
      else if h2 : i - no < argv.length then (some (argv.get ⟨i - no, h2⟩), SQLITE_OK)
      else (none, SQLITE_OK) := by
  have hargv : (nextN n (statement_vtab_filter cur0 idx argv).2).param_argv = argv := by
    rw [nextN_param_argv, filter_ok_param_argv cur0 idx argv hwf hok]
  rw [statement_vtab_column]
  by_cases hi : i < no
  · rw [if_pos hi, dif_pos hi, sqlite3_column_value, hrow]
    simp [List.get?_eq_get (Nat.lt_of_lt_of_le hi hlen)]
  · rw [if_neg hi, dif_neg hi, hargv]
    by_cases h2 : i - no < argv.length
    · rw [if_pos h2, dif_pos h2]
      simp [List.get?_eq_get h2]
    · rw [if_neg h2, dif_neg h2]

/-- Witness for C4: a one-output statement producing the row `[10]`, bound
with `argv = [7]`: column 0 reads the row value, column 1 the pass-through
bound input, column 2 null. -/
theorem column_protocol_witness :
    statement_vtab_column 1
        (nextN 0 (statement_vtab_filter
          (statement_vtab_open [StepEntry.row [10]] 1 999 [555]) none [7]).2) 1
      = (some 7, SQLITE_OK) := by
  have h := column_protocol 1 (statement_vtab_open [StepEntry.row [10]] 1 999 [555])
    none [7] 0 1 [10] (by rfl) (by rfl) (by rfl) (by decide)
  exact h.trans (by rfl)

/-- C5 (amended): `current_row_id` is set to 1 when the scan is bound —
before any row is produced — so it is 1 on the first successful row; each
advance that produces a row increments it by exactly 1, and an advance that
produces no row (exhaustion or error) leaves it unchanged. -/
theorem rowid_protocol {V : Type} (cur cur' : StatementCursor V)
    (idx : Option (List Nat)) (argv : List V) :
    (statement_vtab_filter cur idx argv).2.rowid = 1 ∧
    (statement_vtab_next cur').2.rowid =
      (if (sqlite3_step cur'.stmt).1 = SQLITE_ROW then cur'.rowid + 1 else cur'.rowid) := by
  constructor
  · simp only [statement_vtab_filter]
    split_ifs <;> rfl
  · simp only [statement_vtab_next]
    split_ifs <;> rfl

/-- C5 counterexample: binding a scan over a statement that produces no rows
leaves the cursor before any row (at end), yet `current_row_id` is already 1,
not 0 — the row counter never holds 0 before the first row. -/
theorem rowid_counterexample :
    (statement_vtab_filter (statement_vtab_open ([] : List (StepEntry Nat)) 0 0 [])
        none []).1 = SQLITE_OK ∧
    statement_vtab_eof (statement_vtab_filter
        (statement_vtab_open ([] : List (StepEntry Nat)) 0 0 []) none []).2 = true ∧
    (statement_vtab_filter (statement_vtab_open ([] : List (StepEntry Nat)) 0 0 [])
        none []).2.rowid = 1 := by
  refine ⟨rfl, rfl, rfl⟩

/-! ## Schema derivation lemmas -/

/-- Comma-terminated text distributes over clause-list concatenation. -/
theorem commaText_append (as bs : List String) :
    commaText (as ++ bs) = commaText as ++ commaText bs := by
  induction as with
  | nil => simp [commaText]
  | cons a as ih =>
    simp only [List.cons_append, commaText, List.append_eq, ih, String.append_assoc]

/-- Comma-terminated text is the comma-separated text with a trailing
comma. -/
theorem commaText_eq (es : List String) :
    commaText es = if es = [] then "" else sepByComma es ++ "," := by
  induction es with
  | nil => rfl
  | cons e es ih =>
    rw [commaText, ih]
    cases es with
    | nil => simp [sepByComma]
    | cons f fs =>
      rw [if_neg (List.cons_ne_nil f fs), if_neg (List.cons_ne_nil e (f :: fs))]
      have hs : sepByComma (e :: f :: fs) = e ++ "," ++ sepByComma (f :: fs) := rfl
      rw [hs]
      simp [String.append_assoc]

/-- When every output column has a name, the output-column loop produces the
comma-terminated output clauses. -/
theorem colClauses_some :
    ∀ (cols : List ColMeta), (∀ c ∈ cols, c.name ≠ none) →
      colClauses cols = some (commaText (cols.map
        (fun c => quoteQ (c.name.getD "") ++ " " ++ c.decltype.getD ""))) := by
  intro cols
  induction cols with
  | nil => intro _; rfl
  | cons c cs ih =>
    intro h
    cases hn : c.name with
    | none => exact absurd hn (h c (List.mem_cons_self c cs))
    | some n =>
      rw [colClauses, hn, ih (fun d hd => h d (List.mem_cons_of_mem c hd))]
      simp only [Option.map_some, List.map_cons, commaText, hn, Option.getD_some,
        Option.some.injEq]
      simp [String.append_assoc]

/-- When some output column has no name, the output-column loop fails. -/
theorem colClauses_none :
    ∀ (cols : List ColMeta), (∃ c ∈ cols, c.name = none) →
      colClauses cols = none := by
  intro cols
  induction cols with
  | nil => intro h; simp at h
  | cons c cs ih =>
    intro h
    rw [colClauses]
    cases hn : c.name with
    | none => rfl
    | some n =>
      obtain ⟨d, hd, hdn⟩ := h
      rcases List.mem_cons.mp hd with rfl | hd2
      · rw [hn] at hdn; exact absurd hdn (by simp)
      · rw [ih ⟨d, hd2, hdn⟩]; rfl

/-- The parameter loop produces the comma-terminated hidden-column clauses,
with the ordinal of the parameter tracked by `enumFrom`. -/
theorem paramClauses_eq :
    ∀ (ps : List (Option String)) (i : Nat),
      paramClauses ps i = commaText ((List.enumFrom i ps).map (fun q =>
        match q.2 with
        | some n => quoteQ (n.drop 1) ++ " hidden"
        | none => String.singleton squote ++ toString (q.1 + 1) ++ String.singleton squote
                  ++ " hidden")) := by
  intro ps
  induction ps with
  | nil => intro i; rfl
  | cons p ps ih =>
    intro i
    have hh : (" hidden," : String) = " hidden" ++ "," := by decide
    cases p with
    | none =>
      show String.singleton squote ++ toString (i + 1) ++ String.singleton squote
          ++ " hidden," ++ paramClauses ps (i + 1) = _
      rw [ih (i + 1)]
      simp only [List.enumFrom, List.map_cons, commaText]
      rw [hh]
      simp [String.append_assoc]
    | some n =>
      show quoteQ (n.drop 1) ++ " hidden," ++ paramClauses ps (i + 1) = _
      rw [ih (i + 1)]
      simp only [List.enumFrom, List.map_cons, commaText]
      rw [hh]
      simp [String.append_assoc]

/-! ## Claim theorems: schema derivation and relation creation -/

/-- C8: the derived schema lists the output columns first, in statement
order, followed by one hidden input column per bind parameter in parameter
order; a named parameter's column is named after the parameter name minus
its leading marker character, an unnamed parameter's column after its
1-based ordinal rendered as text. -/
theorem schema_layout (m : StmtMeta) (h : ∀ c ∈ m.cols, c.name ≠ none) :
    build_create_statement true m = some (
      if schemaEntries m = [] then "CREATE TABLE x()"
      else "CREATE TABLE x( " ++ sepByComma (schemaEntries m) ++ ")") := by
  rw [build_create_statement, if_neg (by simp)]
  rw [colClauses_some m.cols h]
  dsimp only
  rw [paramClauses_eq m.params 0]
  have henum : m.params.enum = List.enumFrom 0 m.params := rfl
  have hjoin : "CREATE TABLE x( "
        ++ commaText (m.cols.map
            (fun c => quoteQ (c.name.getD "") ++ " " ++ c.decltype.getD ""))
        ++ commaText ((List.enumFrom 0 m.params).map (fun q =>
            match q.2 with
            | some n => quoteQ (n.drop 1) ++ " hidden"
            | none => String.singleton squote ++ toString (q.1 + 1)
                      ++ String.singleton squote ++ " hidden"))
      = "CREATE TABLE x( " ++ commaText (schemaEntries m) := by
    rw [schemaEntries, henum, commaText_append, String.append_assoc]
  rw [hjoin]
  have hne : ("CREATE TABLE x( " ++ commaText (schemaEntries m)).data ≠ [] := by
    rw [String.data_append]
    intro heq
    have hlen : ("CREATE TABLE x( ".data).length
        + (commaText (schemaEntries m)).data.length = 0 := by
      rw [← List.length_append, heq]; rfl
    have h16 : ("CREATE TABLE x( ".data).length = 16 := by decide
    omega
  rw [if_neg hne]
  by_cases hE : schemaEntries m = []
  · rw [hE, if_pos rfl]
    rw [show commaText ([] : List String) = "" from rfl, String.append_empty]
    exact congrArg some (by decide)
  · rw [if_neg hE, commaText_eq, if_neg hE]
    refine congrArg some (String.ext ?_)
    rw [← String.append_assoc, String.data_append, String.data_append,
      String.data_append, String.data_append]
    rw [show ("," : String).data = [','] from rfl, show (")" : String).data = [')'] from rfl]
    rw [List.dropLast_concat]

/-- Witness for C8: one named output column with a declared type, one named
parameter `:k` and one unnamed parameter. -/
theorem schema_layout_witness :
    build_create_statement true ⟨true, [⟨some "v", some "TEXT"⟩], [some ":k", none]⟩
      = some (
        if schemaEntries ⟨true, [⟨some "v", some "TEXT"⟩], [some ":k", none]⟩ = []
        then "CREATE TABLE x()"
        else "CREATE TABLE x( "
          ++ sepByComma (schemaEntries ⟨true, [⟨some "v", some "TEXT"⟩], [some ":k", none]⟩)
          ++ ")") :=
  schema_layout ⟨true, [⟨some "v", some "TEXT"⟩], [some ":k", none]⟩ (by decide)

/-- C7: for every read-only parenthesized query that prepares successfully
(with namable result columns), creation succeeds and the relation's counts
are the statement's own result-column and bind-parameter counts; creation
fails with the appropriate descriptive error when the argument is missing or
shorter than 3 characters, when it is not parenthesized, or when the
statement is not read-only. -/
theorem create_contract (prepare : String → Except (Nat × String) StmtMeta)
    (args : List String) :
    (∀ m : StmtMeta, 4 ≤ args.length → 3 ≤ (args.getD 3 "").length →
      (args.getD 3 "").data.head? = some '(' →
      (args.getD 3 "").data.getLast? = some ')' →
      prepare (String.mk ((args.getD 3 "").data.drop 1).dropLast) = .ok m →
      m.readonly = true → (∀ c ∈ m.cols, c.name ≠ none) →
      ∃ v, statement_vtab_create prepare true args = .ok v ∧
        v.num_outputs = m.cols.length ∧ v.num_inputs = m.params.length) ∧
    (args.length < 4 ∨ (args.getD 3 "").length < 3 →
      statement_vtab_create prepare true args
        = .error (SQLITE_MISUSE, some "no statement provided")) ∧
    (4 ≤ args.length → 3 ≤ (args.getD 3 "").length →
      ((args.getD 3 "").data.head? ≠ some '(' ∨
        (args.getD 3 "").data.getLast? ≠ some ')') →
      statement_vtab_create prepare true args
        = .error (SQLITE_MISUSE, some "statement must be parenthesized")) ∧
    (∀ m : StmtMeta, 4 ≤ args.length → 3 ≤ (args.getD 3 "").length →
      (args.getD 3 "").data.head? = some '(' →
      (args.getD 3 "").data.getLast? = some ')' →
      prepare (String.mk ((args.getD 3 "").data.drop 1).dropLast) = .ok m →
      m.readonly = false →
      statement_vtab_create prepare true args
        = .error (SQLITE_ERROR, some "Statement must be read only.")) := by
  refine ⟨?_, ?_, ?_, ?_⟩
  · intro m h4 h3 hpo hpc hprep hro hnames
    have hbuild := colClauses_some m.cols hnames
    simp only [statement_vtab_create]
    rw [if_neg (by omega), if_neg (by push_neg; exact ⟨hpo, hpc⟩), hprep]
    dsimp only
    rw [if_neg (by simp [hro]), build_create_statement, if_neg (by simp), hbuild]
    exact ⟨_, rfl, rfl, rfl⟩
  · intro h
    simp only [statement_vtab_create]
    rw [if_pos h]
  · intro h4 h3 h
    simp only [statement_vtab_create]
    rw [if_neg (by omega), if_pos h]
  · intro m h4 h3 hpo hpc hprep hro
    simp only [statement_vtab_create]
    rw [if_neg (by omega), if_neg (by push_neg; exact ⟨hpo, hpc⟩), hprep]
    dsimp only
    rw [if_pos hro]

/-- Witness for C7: a concrete prepare oracle with one result column and one
parameter exercises the success path and all three failure paths. -/
theorem create_contract_witness :
    (∃ v, statement_vtab_create
        (fun _ => .ok ⟨true, [⟨some "v", none⟩], [some ":k"]⟩) true
        ["module", "db", "tab", "(SELECT v FROM t WHERE k = :k)"] = .ok v ∧
      v.num_outputs = 1 ∧ v.num_inputs = 1) ∧
    statement_vtab_create (fun _ => .ok ⟨true, [⟨some "v", none⟩], [some ":k"]⟩) true
        ["module", "db", "tab", "()"]
      = .error (SQLITE_MISUSE, some "no statement provided") ∧
    statement_vtab_create (fun _ => .ok ⟨true, [⟨some "v", none⟩], [some ":k"]⟩) true
        ["module", "db", "tab", "SELECT 1"]
      = .error (SQLITE_MISUSE, some "statement must be parenthesized") ∧
    statement_vtab_create (fun _ => .ok ⟨false, [⟨some "v", none⟩], [some ":k"]⟩) true
        ["module", "db", "tab", "(DELETE FROM t)"]
      = .error (SQLITE_ERROR, some "Statement must be read only.") := by
  refine ⟨?_, ?_, ?_, ?_⟩
  · obtain ⟨v, hv, ho, hi⟩ := (create_contract
        (fun _ => .ok ⟨true, [⟨some "v", none⟩], [some ":k"]⟩)
        ["module", "db", "tab", "(SELECT v FROM t WHERE k = :k)"]).1
      ⟨true, [⟨some "v", none⟩], [some ":k"]⟩
      (by decide) (by decide) (by decide) (by decide) (by rfl) (by rfl) (by decide)
    exact ⟨v, hv, ho, hi⟩
  · exact (create_contract (fun _ => .ok ⟨true, [⟨some "v", none⟩], [some ":k"]⟩)
      ["module", "db", "tab", "()"]).2.1 (by decide)
  · exact (create_contract (fun _ => .ok ⟨true, [⟨some "v", none⟩], [some ":k"]⟩)
      ["module", "db", "tab", "SELECT 1"]).2.2.1 (by decide) (by decide) (by decide)
  · exact (create_contract (fun _ => .ok ⟨false, [⟨some "v", none⟩], [some ":k"]⟩)
      ["module", "db", "tab", "(DELETE FROM t)"]).2.2.2
      ⟨false, [⟨some "v", none⟩], [some ":k"]⟩
      (by decide) (by decide) (by decide) (by decide) (by rfl) (by rfl)

/-- C6 (amended): relation creation reports both schema-derivation failures —
an output column with no retrievable name, and failure of the schema-text
allocation — with the same result (`SQLITE_NOMEM`, no message); the two
failures are reported identically, not distinctly. -/
theorem create_error_conflation (prepare : String → Except (Nat × String) StmtMeta)
    (args : List String) (m : StmtMeta) (alloc_ok : Bool)
    (h4 : 4 ≤ args.length) (h3 : 3 ≤ (args.getD 3 "").length)
    (hpo : (args.getD 3 "").data.head? = some '(')
    (hpc : (args.getD 3 "").data.getLast? = some ')')
    (hprep : prepare (String.mk ((args.getD 3 "").data.drop 1).dropLast) = .ok m)
    (hro : m.readonly = true)
    (hfail : (∃ c ∈ m.cols, c.name = none) ∨ alloc_ok = false) :
    statement_vtab_create prepare alloc_ok args = .error (SQLITE_NOMEM, none) := by
  have hbuild : build_create_statement alloc_ok m = none := by
    rw [build_create_statement]
    rcases hfail with hc | ha
    · split
      · rfl
      · rw [colClauses_none m.cols hc]
    · rw [if_pos ha]
  simp only [statement_vtab_create]
  rw [if_neg (by omega), if_neg (by push_neg; exact ⟨hpo, hpc⟩), hprep]
  dsimp only
  rw [if_neg (by simp [hro]), hbuild]

/-- Witness for C6's amended statement: an unnamable output column is
reported as `SQLITE_NOMEM` with no message. -/
theorem create_error_conflation_witness :
    statement_vtab_create (fun _ => .ok ⟨true, [⟨none, none⟩], []⟩) true
        ["module", "db", "tab", "(SELECT 1)"]
      = .error (SQLITE_NOMEM, none) :=
  create_error_conflation (fun _ => .ok ⟨true, [⟨none, none⟩], []⟩)
    ["module", "db", "tab", "(SELECT 1)"] ⟨true, [⟨none, none⟩], []⟩ true
    (by decide) (by decide) (by decide) (by decide) (by rfl) (by rfl)
    (Or.inl ⟨⟨none, none⟩, by decide, rfl⟩)

/-- C6 counterexample: the unnamable-column failure and the allocation
failure produce the same error — result code `SQLITE_NOMEM` and no message in
both cases — so the code does not report them distinctly, and the unnamable
column is not signalled as a separate schema-derivation error. -/
theorem create_error_conflation_cx :
    statement_vtab_create (fun _ => .ok ⟨true, [⟨none, none⟩], []⟩) true
        ["module", "db", "tab", "(SELECT 1)"]
      = .error (SQLITE_NOMEM, none) ∧
    statement_vtab_create (fun _ => .ok ⟨true, [⟨some "v", none⟩], []⟩) false
        ["module", "db", "tab", "(SELECT 1)"]
      = .error (SQLITE_NOMEM, none) :=
  ⟨rfl, rfl⟩

/-- C10: connecting to an existing relation is exactly the create operation —
the schema is re-derived and every creation-time validation is re-applied on
every connect. -/
theorem connect_eq_create (prepare : String → Except (Nat × String) StmtMeta)
    (alloc_ok : Bool) (args : List String) :
    statement_vtab_connect prepare alloc_ok args
      = statement_vtab_create prepare alloc_ok args := rfl

end StatementVtab
